import Mathlib

/-!
Shallow embedding of the timer engine in src/misc/timer.py.

The engine side (ComplexTimer) is modelled per mode: each run loop becomes a
recursive Lean function driven by the instant at which the stop event becomes
set (stopAt, none meaning stop is never called) and, where the loop does not
terminate on its own, by a fuel argument counting loop iterations.  Time is a
natural number in the unit natural to each loop: seconds for countdown,
interval, scheduled, conditional and pomodoro, tenths of a second for the
chain liveness poll.  The registry side (TimerManager) is modelled as a list
of timer records plus a list of change callbacks.
-/

namespace TimerModel

/-- The TimerType enum of the source (seven timer modes). -/
inductive TimerType where
  | countdown
  | interval
  | scheduled
  | conditional
  | chain
  | pomodoro
  | stopwatch
deriving DecidableEq, Repr

/-- The string value of each TimerType member, as in the source enum. -/
def TimerType.value : TimerType → String
  | .countdown => "countdown"
  | .interval => "interval"
  | .scheduled => "scheduled"
  | .conditional => "conditional"
  | .chain => "chain"
  | .pomodoro => "pomodoro"
  | .stopwatch => "stopwatch"

/-- Python TimerType(tag): looks the tag up among the enum values and raises
ValueError (here: none) when the tag is unknown. -/
def TimerType.ofValue (s : String) : Option TimerType :=
  if s = "countdown" then some .countdown
  else if s = "interval" then some .interval
  else if s = "scheduled" then some .scheduled
  else if s = "conditional" then some .conditional
  else if s = "chain" then some .chain
  else if s = "pomodoro" then some .pomodoro
  else if s = "stopwatch" then some .stopwatch
  else none

/-- The ActionType enum of the source (six action kinds). -/
inductive ActionType where
  | notification
  | sound
  | command
  | popup
  | fileWrite
  | httpRequest
deriving DecidableEq, Repr

/-- The string value of each ActionType member, as in the source enum. -/
def ActionType.value : ActionType → String
  | .notification => "notification"
  | .sound => "sound"
  | .command => "command"
  | .popup => "popup"
  | .fileWrite => "file_write"
  | .httpRequest => "http_request"

/-- Python ActionType(tag): none when the tag is unknown (ValueError). -/
def ActionType.ofValue (s : String) : Option ActionType :=
  if s = "notification" then some .notification
  else if s = "sound" then some .sound
  else if s = "command" then some .command
  else if s = "popup" then some .popup
  else if s = "file_write" then some .fileWrite
  else if s = "http_request" then some .httpRequest
  else none

/-- stop_event.is_set() at instant t, when the stop event becomes set at
instant stopAt (none: stop is never called). -/
def stopSet : Option Nat → Nat → Bool
  | none, _ => false
  | some s, t => decide (s ≤ t)

/-- stop_event.wait(d) entered at instant t returns true (interrupting the
wait) exactly when the stop event becomes set no later than t + d. -/
def waitInterrupted : Option Nat → Nat → Nat → Bool
  | none, _, _ => false
  | some s, t, d => decide (s ≤ t + d)

/-- How a modelled run loop ended: still running when the fuel ran out,
exited because the stop event was observed, exited on its own, or exited
because an exception escaped to the catch-all in _run. -/
inductive Status where
  | running
  | stopped
  | natural
  | error
deriving DecidableEq, Repr

/-- ComplexTimer._run_countdown: while remaining > 0 and the stop event is
unset, sleep one second and decrement remaining; after the loop, trigger
exactly when the stop event is unset.  Returns the instants at which
_trigger ran together with how the loop ended. -/
def runCountdown (stopAt : Option Nat) : Nat → Nat → List Nat × Status
  | 0, t => if stopSet stopAt t then ([], .stopped) else ([t], .natural)
  | remaining + 1, t =>
    if stopSet stopAt t then ([], .stopped)
    else runCountdown stopAt remaining (t + 1)

/-- ComplexTimer._run_interval: each iteration first checks the stop event,
then performs one cancellable stop_event.wait(interval); when the wait is
not interrupted it triggers, increments count, and exits on its own once a
positive max_repeats is reached.  maxR is the max_repeats config value (an
int, -1 by default); fuel bounds the number of iterations modelled. -/
def runInterval (stopAt : Option Nat) (iv : Nat) (maxR : Int) :
    Nat → Nat → Nat → List Nat × Status
  | 0, _, _ => ([], .running)
  | fuel + 1, count, t =>
    if stopSet stopAt t then ([], .stopped)
    else if waitInterrupted stopAt t iv then ([], .stopped)
    else if 0 < maxR ∧ maxR ≤ (count : Int) + 1 then ([t + iv], .natural)
    else
      let r := runInterval stopAt iv maxR fuel (count + 1) (t + iv)
      ((t + iv) :: r.1, r.2)

/-- The instants of n consecutive interval triggers starting at instant t:
one trigger at the end of each single wait of the configured interval. -/
def intervalSpecTriggers (iv : Nat) : Nat → Nat → List Nat
  | 0, _ => []
  | n + 1, t => (t + iv) :: intervalSpecTriggers iv n (t + iv)

/-- A time-of-day as compared by _run_scheduled: hour, minute and second
(the comparison in the source reads exactly these three fields). -/
structure TimeOfDay where
  hour : Nat
  minute : Nat
  second : Nat
deriving DecidableEq, Repr

/-- The facets of datetime.datetime.now() read by _run_scheduled: the
weekday (0 = Monday .. 6 = Sunday), the calendar date (abstracted to an
ordinal day number), and the time of day. -/
structure DateTime where
  weekday : Nat
  date : Nat
  tod : TimeOfDay
deriving DecidableEq, Repr

/-- The scheduled-mode configuration: schedule_times, days_of_week and the
optional date_specific. -/
structure ScheduledConfig where
  scheduleTimes : List TimeOfDay
  daysOfWeek : List Nat
  dateSpecific : Option Nat
deriving DecidableEq, Repr

/-- The date guard of _run_scheduled: date_specific is set (truthy) and
today differs from it. -/
def dateMismatch (cfg : ScheduledConfig) (now : DateTime) : Bool :=
  match cfg.dateSpecific with
  | none => false
  | some d => decide (now.date ≠ d)

/-- One iteration of the _run_scheduled while body at datetime now: returns
how many times _trigger runs in this iteration (once per schedule_times
entry equal to the current time-of-day) and the duration of the blocking
time.sleep ending the iteration, in tenths of a second (600 on the weekday
or date mismatch branches, 10 otherwise). -/
def scheduledIter (cfg : ScheduledConfig) (now : DateTime) : Nat × Nat :=
  if ¬ now.weekday ∈ cfg.daysOfWeek then (0, 600)
  else if dateMismatch cfg now then (0, 600)
  else (cfg.scheduleTimes.count now.tod, 10)

/-- A suspension point inside one of the seven run loops: the place where
each loop sleeps or waits once per iteration. -/
inductive LoopPoint where
  | countdownTick
  | intervalWait
  | scheduledPoll (cfg : ScheduledConfig) (now : DateTime)
  | conditionalWait
  | chainPoll
  | pomodoroTick
  | stopwatchTick

/-- The mode whose run loop a suspension point belongs to. -/
def pointMode : LoopPoint → TimerType
  | .countdownTick => .countdown
  | .intervalWait => .interval
  | .scheduledPoll _ _ => .scheduled
  | .conditionalWait => .conditional
  | .chainPoll => .chain
  | .pomodoroTick => .pomodoro
  | .stopwatchTick => .stopwatch

/-- The duration, in tenths of a second, of the uncancellable blocking
time.sleep at each suspension point, read off the source: countdown and
pomodoro sleep 1 s per tick, chain and stopwatch sleep 0.1 s per poll, the
scheduled poll sleeps what its iteration chose (1 s or 60 s), and interval
and conditional suspend only on a cancellable stop_event.wait (no blocking
sleep). -/
def blockingSleepTenths : LoopPoint → Nat
  | .countdownTick => 10
  | .intervalWait => 0
  | .scheduledPoll cfg now => (scheduledIter cfg now).2
  | .conditionalWait => 0
  | .chainPoll => 1
  | .pomodoroTick => 10
  | .stopwatchTick => 1

/-- The polling granularity the spec assigns to each mode, in tenths of a
second: one second for countdown and scheduled, one-second ticks for
pomodoro, fine-grained 0.1 s for chain and stopwatch, and one second as a
bound for the modes whose waits are cancellable. -/
def granularityTenths : TimerType → Nat
  | .countdown => 10
  | .interval => 10
  | .scheduled => 10
  | .conditional => 10
  | .chain => 1
  | .pomodoro => 10
  | .stopwatch => 1

/-- A Python value as it appears in condition results and in the config and
action parameter bags. -/
inductive PyVal where
  | pBool (b : Bool)
  | pInt (n : Int)
  | pStr (s : String)
  | pNone
  | pTime (t : TimeOfDay)
  | pDate (d : Nat)
  | pList (xs : List PyVal)
  | pDict (kvs : List (String × PyVal))

/-- Python bool(v), the truthiness conversion _evaluate_condition applies
to the result of eval. -/
def truthy : PyVal → Bool
  | .pBool b => b
  | .pInt n => decide (n ≠ 0)
  | .pStr s => decide (s ≠ "")
  | .pNone => false
  | .pTime _ => true
  | .pDate _ => true
  | .pList xs => !xs.isEmpty
  | .pDict kvs => !kvs.isEmpty

/-- Whether a Python value is an actual bool. -/
def isBool : PyVal → Bool
  | .pBool _ => true
  | _ => false

/-- The outcome of eval(condition_script, safe_globals): an escaping
exception, or a returned value. -/
inductive EvalOutcome where
  | raises
  | returns (v : PyVal)

/-- ComplexTimer._evaluate_condition: returns bool(eval(...)) under a bare
except returning False, so an exception yields False and a returned value
is coerced by Python truthiness. -/
def evaluateCondition : EvalOutcome → Bool
  | .raises => false
  | .returns v => truthy v

/-- The poll instants of a loop polling every iv seconds starting at t. -/
def pollTimes (iv : Nat) : Nat → Nat → List Nat
  | 0, _ => []
  | n + 1, t => t :: pollTimes iv n (t + iv)

/-- ComplexTimer._run_conditional: each iteration evaluates the condition
inside a try/except that prints and contains any error, triggers when the
evaluation returned true, then suspends on one cancellable
stop_event.wait(check_interval).  evalAt gives the outcome of eval at each
poll instant. -/
def runConditional (stopAt : Option Nat) (evalAt : Nat → EvalOutcome) (iv : Nat) :
    Nat → Nat → List Nat × Status
  | 0, _ => ([], .running)
  | fuel + 1, t =>
    if stopSet stopAt t then ([], .stopped)
    else
      let ts := if evaluateCondition (evalAt t) then [t] else []
      if waitInterrupted stopAt t iv then (ts, .stopped)
      else
        let r := runConditional stopAt evalAt iv fuel (t + iv)
        (ts ++ r.1, r.2)

/-- The pomodoro-mode configuration: work, break and long-break durations
in seconds, and the cycle threshold for long breaks. -/
structure PomConfig where
  workDuration : Nat
  breakDuration : Nat
  longBreakDuration : Nat
  cyclesUntilLongBreak : Nat
deriving DecidableEq, Repr

/-- The pomodoro runtime state: the completed-cycle counter and the
work-phase flag (both set up by _init_timer_specifics as 0 and True). -/
structure PomState where
  currentCycle : Nat
  isWorkPeriod : Bool
deriving DecidableEq, Repr

/-- The duration _run_pomodoro picks for the current phase: the work
duration on a work phase; on a break phase the long-break duration when
current_cycle % cycles_until_long_break == 0 and current_cycle > 0, else
the short break duration.  With cycles_until_long_break = 0 the modulo
raises ZeroDivisionError (none). -/
def pomPhaseDuration (cfg : PomConfig) (st : PomState) : Option Nat :=
  if st.isWorkPeriod then some cfg.workDuration
  else if cfg.cyclesUntilLongBreak = 0 then none
  else if st.currentCycle % cfg.cyclesUntilLongBreak = 0 ∧ 0 < st.currentCycle
    then some cfg.longBreakDuration
    else some cfg.breakDuration

/-- The state update at the end of a completed phase: the cycle counter
increments exactly on work phases, and the phase flag flips. -/
def pomStep (st : PomState) : PomState :=
  ⟨if st.isWorkPeriod then st.currentCycle + 1 else st.currentCycle,
   !st.isWorkPeriod⟩

/-- The pomodoro state at the start of the n-th phase (0-based) of an
uncancelled run. -/
def pomStateAt : Nat → PomState
  | 0 => ⟨0, true⟩
  | n + 1 => pomStep (pomStateAt n)

/-- The stop check before every one-second tick of the current phase:
a phase entered at instant t with duration d is abandoned without a trigger
exactly when the stop event is set strictly before instant t + d. -/
def phaseInterrupted : Option Nat → Nat → Nat → Bool
  | none, _, _ => false
  | some s, t, d => decide (s < t + d)

/-- ComplexTimer._run_pomodoro: each iteration checks the stop event, picks
the current phase duration (a ZeroDivisionError ends the loop through the
catch-all in _run), runs the phase in one-second ticks each preceded by a
stop check, triggers once at the end of the phase, and advances the state.
Returns the trigger instants and how the loop ended. -/
def runPomodoro (stopAt : Option Nat) (cfg : PomConfig) :
    Nat → PomState → Nat → List Nat × Status
  | 0, _, _ => ([], .running)
  | fuel + 1, st, t =>
    if stopSet stopAt t then ([], .stopped)
    else
      match pomPhaseDuration cfg st with
      | none => ([], .error)
      | some d =>
        if phaseInterrupted stopAt t d then ([], .stopped)
        else
          let r := runPomodoro stopAt cfg fuel (pomStep st) (t + d)
          ((t + d) :: r.1, r.2)

/-- One sub-timer episode of a chain run: when the sub-timer was
constructed and started, when the parent's wait on it ended, and whether
the sub-timer's run loop had finished on its own at that point. -/
structure Episode where
  start : Nat
  finish : Nat
  completed : Bool
deriving DecidableEq, Repr

/-- ComplexTimer._run_chain, with each sub-timer abstracted by the time its
own run loop needs to finish naturally (none: it never finishes on its
own; the sub-timer internals are covered by the other modes' models).
Time is in tenths of a second, the granularity of the parent's liveness
poll (time.sleep(0.1)).  Per sub-spec the loop checks the stop event,
constructs and starts the sub-timer, polls until the sub-timer's thread is
done or the stop event is set, then calls the sub-timer's stop().  The
body never calls the parent's own _trigger, so the parent's own trigger
list (second component) is empty; none is returned when the loop blocks
forever (an unfinishing sub-timer with stop never called). -/
def runChain (stopAt : Option Nat) :
    List (Option Nat) → Nat → Option (List Episode × List Nat)
  | [], _ => some ([], [])
  | dur :: rest, t =>
    if stopSet stopAt t then some ([], [])
    else
      match dur, stopAt with
      | some d, none =>
        (runChain none rest (t + d)).map fun r => (⟨t, t + d, true⟩ :: r.1, r.2)
      | some d, some s =>
        (runChain (some s) rest (min (t + d) s)).map
          fun r => (⟨t, min (t + d) s, decide (t + d ≤ s)⟩ :: r.1, r.2)
      | none, none => none
      | none, some s =>
        (runChain (some s) rest s).map fun r => (⟨t, s, false⟩ :: r.1, r.2)

/-- Episodes run back to back from instant t: each sub-timer is constructed
and started exactly when the wait on the previous one ended. -/
def chainedFrom : Nat → List Episode → Prop
  | _, [] => True
  | t, e :: rest => e.start = t ∧ chainedFrom e.finish rest

/-- Only the final episode of a list may be incomplete. -/
def incompleteLast : List Episode → Prop
  | [] => True
  | e :: rest => (e.completed = false → rest = []) ∧ incompleteLast rest

mutual
/-- JSON-encodability of a Python value: json.dump handles ints, strings,
booleans, None, lists and dicts, and raises TypeError on anything else —
in this program the datetime.time and datetime.date objects stored in a
scheduled timer's config. -/
def jsonSafe : PyVal → Bool
  | .pBool _ => true
  | .pInt _ => true
  | .pStr _ => true
  | .pNone => true
  | .pTime _ => false
  | .pDate _ => false
  | .pList xs => jsonSafeList xs
  | .pDict kvs => jsonSafeDict kvs

def jsonSafeList : List PyVal → Bool
  | [] => true
  | x :: xs => jsonSafe x && jsonSafeList xs

def jsonSafeDict : List (String × PyVal) → Bool
  | [] => true
  | (_, v) :: kvs => jsonSafe v && jsonSafeDict kvs
end

/-- A TimerAction of the source: its kind and its parameter dict. -/
structure TimerAction where
  actionType : ActionType
  parameters : PyVal

/-- The slice of a ComplexTimer that the registry persists and load
reconstructs: name, mode, config dict, and the ordered action list. -/
structure TimerRec where
  name : String
  timerType : TimerType
  config : PyVal
  actions : List TimerAction

/-- One entry of the persisted document: the mode tag string, the config,
and the ordered list of (action tag, params) pairs.  json.load returns
ints, strings, booleans, None, lists and dicts unchanged, so the entry
carries the Python values themselves. -/
structure SavedEntry where
  typeTag : String
  config : PyVal
  actions : List (String × PyVal)

/-- TimerManager.save_to_file: builds the document mapping each timer name
to its type tag, config and action list, then json.dump's the whole
document at once; a datetime.time or datetime.date anywhere in a config or
an action's params makes json.dump raise TypeError, in which case no file
is written (none). -/
def saveToFile (timers : List TimerRec) : Option (List (String × SavedEntry)) :=
  if timers.all fun tr =>
      jsonSafe tr.config && tr.actions.all fun a => jsonSafe a.parameters
  then
    some (timers.map fun tr =>
      (tr.name, ⟨tr.timerType.value, tr.config,
        tr.actions.map fun a => (a.actionType.value, a.parameters)⟩))
  else none

/-- A registry change callback, abstracted by whether invoking it raises. -/
structure CallbackSpec where
  raisesErr : Bool

/-- TimerManager: the name-to-engine mapping (a Python dict, insertion
ordered, names unique) and the registered change callbacks. -/
structure Manager where
  timers : List TimerRec
  callbacks : List CallbackSpec

/-- Python `name in self.timers`: whether the registry holds the name. -/
def containsName (ts : List TimerRec) (n : String) : Bool :=
  ts.any fun tr => tr.name == n

/-- TimerManager._notify_callbacks: invokes every callback in order, each
inside its own try/except, so a raising callback is contained (printed)
and the remaining callbacks still run.  Returns one outcome per invoked
callback, false for the ones that raised. -/
def notifyCallbacks : List CallbackSpec → List Bool
  | [] => []
  | c :: rest => (!c.raisesErr) :: notifyCallbacks rest

/-- TimerManager.add_timer: returns False without registering or notifying
when the name is already present; otherwise registers the timer and
notifies the callbacks once.  Result: the new manager, the success flag,
and the callback invocations performed. -/
def addTimer (m : Manager) (tr : TimerRec) : Manager × Bool × List Bool :=
  if containsName m.timers tr.name then (m, false, [])
  else
    ({ m with timers := m.timers ++ [tr] }, true, notifyCallbacks m.callbacks)

/-- TimerManager.remove_timer: returns False without notifying when the
name is absent; otherwise stops the engine, deletes the entry, and
notifies the callbacks once. -/
def removeTimer (m : Manager) (n : String) : Manager × Bool × List Bool :=
  if containsName m.timers n then
    ({ m with timers := m.timers.eraseP fun tr => tr.name == n }, true,
      notifyCallbacks m.callbacks)
  else (m, false, [])

/-- The action-construction loop of load_from_file: ActionType(tag) raises
ValueError on the first unknown action tag (none); otherwise the actions
are built in document order. -/
def parseActions : List (String × PyVal) → Option (List TimerAction)
  | [] => some []
  | (tag, ps) :: rest =>
    (ActionType.ofValue tag).bind fun a =>
      (parseActions rest).map fun acts => ⟨a, ps⟩ :: acts

/-- Construction of one entry's engine in load_from_file: TimerType(tag)
raises on an unknown mode tag, then every action is parsed; any failure
aborts before the engine is registered. -/
def parseEntry (name : String) (e : SavedEntry) : Option TimerRec :=
  (TimerType.ofValue e.typeTag).bind fun ty =>
    (parseActions e.actions).map fun acts => ⟨name, ty, e.config, acts⟩

/-- TimerManager.load_from_file: iterates the document entries in order,
constructing each engine and handing it to add_timer; the single
try/except wrapped around the whole loop prints the first error and stops,
so a failing entry aborts the processing of every entry after it.  Returns
the final manager and whether an error was reported. -/
def loadFromFile (m : Manager) : List (String × SavedEntry) → Manager × Bool
  | [] => (m, false)
  | (name, e) :: rest =>
    match parseEntry name e with
    | none => (m, true)
    | some tr => loadFromFile (addTimer m tr).1 rest

-- ===== Theorems =====

/-- Helper: an uncancelled countdown run triggers once, at start + remaining. -/
theorem runCountdown_none (remaining t : Nat) :
    runCountdown none remaining t = ([t + remaining], .natural) := by
  induction remaining generalizing t with
  | zero => simp [runCountdown, stopSet]
  | succ n ih =>
    simp only [runCountdown, stopSet]
    rw [ih]
    simp
    omega

/-- Helper: a countdown run cancelled before the remaining time runs out
never triggers. -/
theorem runCountdown_stopped (remaining t s : Nat) (h : s < t + remaining) :
    runCountdown (some s) remaining t = ([], .stopped) := by
  induction remaining generalizing t with
  | zero =>
    have hs : s ≤ t := by omega
    simp [runCountdown, stopSet, hs]
  | succ n ih =>
    simp only [runCountdown, stopSet]
    by_cases hs : s ≤ t
    · simp [hs]
    · simp only [decide_eq_true_eq, if_neg hs]
      exact ih (t + 1) (by omega)

/-- Claim C8: a countdown of duration D started at instant 0 and left
uncancelled triggers its action sequence exactly once, at instant D, and
its trigger count becomes 1; cancelled at an instant s before the
remaining time reaches zero (s < D) it never triggers. -/
theorem c8_countdown (D : Nat) :
    runCountdown none D 0 = ([D], .natural) ∧
    ∀ s, s < D → runCountdown (some s) D 0 = ([], .stopped) := by
  constructor
  · simpa using runCountdown_none D 0
  · intro s hs
    exact runCountdown_stopped D 0 s (by omega)

/-- Witness for C8 at D = 3, s = 1. -/
theorem c8_countdown_witness :
    runCountdown none 3 0 = ([3], .natural) ∧
    runCountdown (some 1) 3 0 = ([], .stopped) :=
  ⟨(c8_countdown 3).1, (c8_countdown 3).2 1 (by decide)⟩

/-- Helper: with max_repeats ≤ 0 and the stop event never set, the interval
loop keeps going, triggering once per elapsed interval. -/
theorem runInterval_none_noMax (iv : Nat) (maxR : Int) (h : maxR ≤ 0) :
    ∀ fuel count t, runInterval none iv maxR fuel count t
      = (intervalSpecTriggers iv fuel t, .running) := by
  intro fuel
  induction fuel with
  | zero => intro count t; simp [runInterval, intervalSpecTriggers]
  | succ n ih =>
    intro count t
    have hcond : ¬(0 < maxR ∧ maxR ≤ (count : Int) + 1) := by
      rintro ⟨h1, _⟩; omega
    simp only [runInterval, stopSet, waitInterrupted, if_neg hcond]
    rw [ih (count + 1) (t + iv)]
    simp [intervalSpecTriggers]

/-- Helper: with max_repeats = N > 0 and the stop event never set, the
interval loop triggers N - count more times and then exits on its own. -/
theorem runInterval_none_max (iv : Nat) (N : Nat) :
    ∀ fuel count k t, count + k = N → 0 < k → k ≤ fuel →
      runInterval none iv (N : Int) fuel count t
        = (intervalSpecTriggers iv k t, .natural) := by
  intro fuel
  induction fuel with
  | zero => intro count k t _ h1 h2; omega
  | succ n ih =>
    intro count k t hk h1 h2
    match k, h1 with
    | 1, _ =>
      have hcond : 0 < (N : Int) ∧ (N : Int) ≤ (count : Int) + 1 := by
        constructor <;> omega
      simp only [runInterval, stopSet, waitInterrupted, if_pos hcond]
      simp [intervalSpecTriggers]
    | m + 2, _ =>
      have hcond : ¬(0 < (N : Int) ∧ (N : Int) ≤ (count : Int) + 1) := by
        rintro ⟨_, h3⟩; omega
      simp only [runInterval, stopSet, waitInterrupted, if_neg hcond]
      rw [ih (count + 1) (m + 1) (t + iv) (by omega) (by omega) (by omega)]
      simp [intervalSpecTriggers]

/-- Helper: every trigger instant of n interval waits from t is at least
t + iv. -/
theorem intervalSpecTriggers_lower (iv : Nat) :
    ∀ n t m, m ∈ intervalSpecTriggers iv n t → t + iv ≤ m := by
  intro n
  induction n with
  | zero => intro t m hm; simp [intervalSpecTriggers] at hm
  | succ k ih =>
    intro t m hm
    simp only [intervalSpecTriggers, List.mem_cons] at hm
    rcases hm with rfl | hm
    · omega
    · have := ih (t + iv) m hm; omega

/-- Helper: with max_repeats ≤ 0 and the stop event set at instant s, the
interval loop triggers exactly at the interval multiples before s and then
exits on the stop signal. -/
theorem runInterval_some_noMax (iv : Nat) (maxR : Int) (h : maxR ≤ 0) (s : Nat) :
    ∀ fuel count t, (runInterval (some s) iv maxR fuel count t).1
      = (intervalSpecTriggers iv fuel t).filter (fun m => decide (m < s)) := by
  intro fuel
  induction fuel with
  | zero => intro count t; simp [runInterval, intervalSpecTriggers]
  | succ n ih =>
    intro count t
    by_cases hs : s ≤ t
    · have : ∀ m ∈ intervalSpecTriggers iv (n + 1) t, ¬(decide (m < s) = true) := by
        intro m hm
        have := intervalSpecTriggers_lower iv (n + 1) t m hm
        simp; omega
      rw [List.filter_eq_nil_iff.mpr this]
      simp [runInterval, stopSet, hs]
    · by_cases hw : s ≤ t + iv
      · have : ∀ m ∈ intervalSpecTriggers iv (n + 1) t, ¬(decide (m < s) = true) := by
          intro m hm
          have := intervalSpecTriggers_lower iv (n + 1) t m hm
          simp; omega
        rw [List.filter_eq_nil_iff.mpr this]
        simp [runInterval, stopSet, waitInterrupted, hs, hw]
      · have hcond : ¬(0 < maxR ∧ maxR ≤ (count : Int) + 1) := by
          rintro ⟨h1, _⟩; omega
        simp only [runInterval, stopSet, waitInterrupted, if_neg hcond,
          decide_eq_true_eq, if_neg hs, if_neg hw]
        simp only [intervalSpecTriggers, List.filter_cons]
        have hlt : decide (t + iv < s) = true := by simp; omega
        rw [hlt]
        simp [ih (count + 1) (t + iv)]

/-- Claim C3: an interval timer with max_repeats = N > 0 left uncancelled
triggers exactly N times, once at the end of each single wait of the
configured interval, and then exits its loop on its own (without stop());
with max_repeats ≤ 0 it keeps triggering once per elapsed interval for as
long as it runs, and when the stop event is set at instant s it triggers
exactly at the interval multiples before s and then exits on the stop
signal. -/
theorem c3_interval :
    (∀ iv (N fuel : Nat), 0 < N → N ≤ fuel →
      runInterval none iv (N : Int) fuel 0 0
        = (intervalSpecTriggers iv N 0, .natural))
  ∧ (∀ iv (maxR : Int) (fuel : Nat), maxR ≤ 0 →
      runInterval none iv maxR fuel 0 0
        = (intervalSpecTriggers iv fuel 0, .running))
  ∧ (∀ iv (maxR : Int) (s fuel : Nat), maxR ≤ 0 →
      (runInterval (some s) iv maxR fuel 0 0).1
        = (intervalSpecTriggers iv fuel 0).filter (fun m => decide (m < s))) := by
  refine ⟨?_, ?_, ?_⟩
  · intro iv N fuel h1 h2
    exact runInterval_none_max iv N fuel 0 N 0 (by omega) h1 h2
  · intro iv maxR fuel h
    exact runInterval_none_noMax iv maxR h fuel 0 0
  · intro iv maxR s fuel h
    exact runInterval_some_noMax iv maxR h s fuel 0 0

/-- Witness for C3 at interval 2 with max_repeats 3 (uncancelled),
max_repeats -1 (uncancelled), and max_repeats -1 stopped at instant 5. -/
theorem c3_interval_witness :
    runInterval none 2 (3 : Int) 5 0 0 = (intervalSpecTriggers 2 3 0, .natural)
  ∧ runInterval none 2 (-1) 4 0 0 = (intervalSpecTriggers 2 4 0, .running)
  ∧ (runInterval (some 5) 2 (-1) 4 0 0).1
      = (intervalSpecTriggers 2 4 0).filter (fun m => decide (m < 5)) :=
  ⟨c3_interval.1 2 3 5 (by decide) (by decide),
   c3_interval.2.1 2 (-1) 4 (by decide),
   c3_interval.2.2 2 (-1) 5 4 (by decide)⟩

/-- Counterexample to claim C5: with the schedule-time entry 08:00:00
configured twice, a matching poll (weekday allowed, no specific date) runs
_trigger twice within the same wall-clock second, so the timer does trigger
more than once in one second. -/
theorem c5_counterexample :
    (scheduledIter ⟨[⟨8, 0, 0⟩, ⟨8, 0, 0⟩], [0], none⟩ ⟨0, 0, ⟨8, 0, 0⟩⟩).1 = 2
    ∧ ¬ (scheduledIter ⟨[⟨8, 0, 0⟩, ⟨8, 0, 0⟩], [0], none⟩ ⟨0, 0, ⟨8, 0, 0⟩⟩).1 ≤ 1 := by
  decide

/-- Claim C5, amended: on each poll the scheduled timer triggers once per
configured schedule time equal to the current time-of-day, and only when
the current weekday is in the allowed set and the configured specific date
(if any) is today; in particular it triggers at all exactly when all three
conditions hold.  At most one trigger per poll (hence per wall-clock
second) holds only when the schedule-time entries are pairwise distinct;
duplicate entries each fire within the same second. -/
theorem c5_scheduled_amended (cfg : ScheduledConfig) (now : DateTime) :
    ((scheduledIter cfg now).1
      = if now.weekday ∈ cfg.daysOfWeek ∧ dateMismatch cfg now = false
        then cfg.scheduleTimes.count now.tod else 0)
    ∧ (0 < (scheduledIter cfg now).1 ↔
        now.weekday ∈ cfg.daysOfWeek ∧ dateMismatch cfg now = false
          ∧ now.tod ∈ cfg.scheduleTimes)
    ∧ (cfg.scheduleTimes.Nodup → (scheduledIter cfg now).1 ≤ 1) := by
  by_cases h1 : now.weekday ∈ cfg.daysOfWeek
  · by_cases h2 : dateMismatch cfg now
    · simp [scheduledIter, h1, h2]
    · have h2f : dateMismatch cfg now = false := by
        cases hmb : dateMismatch cfg now
        · rfl
        · exact absurd hmb h2
      have hiter : scheduledIter cfg now = (cfg.scheduleTimes.count now.tod, 10) := by
        simp [scheduledIter, h1, h2f]
      rw [hiter]
      refine ⟨by simp [h1, h2f], ?_, ?_⟩
      · simp [h1, h2f, List.count_pos_iff]
      · intro hnd
        exact List.nodup_iff_count_le_one.mp hnd now.tod
  · simp [scheduledIter, h1]

/-- Witness for C5 (amended) at a configuration with distinct schedule
times, on a matching poll. -/
theorem c5_scheduled_amended_witness :
    ((scheduledIter ⟨[⟨8, 0, 0⟩, ⟨9, 0, 0⟩], [0], none⟩ ⟨0, 0, ⟨8, 0, 0⟩⟩).1
      = if (0 : Nat) ∈ [(0 : Nat)] ∧ dateMismatch ⟨[⟨8, 0, 0⟩, ⟨9, 0, 0⟩], [0], none⟩ ⟨0, 0, ⟨8, 0, 0⟩⟩ = false
        then List.count (⟨8, 0, 0⟩ : TimeOfDay) [⟨8, 0, 0⟩, ⟨9, 0, 0⟩] else 0)
    ∧ (scheduledIter ⟨[⟨8, 0, 0⟩, ⟨9, 0, 0⟩], [0], none⟩ ⟨0, 0, ⟨8, 0, 0⟩⟩).1 ≤ 1 :=
  ⟨(c5_scheduled_amended ⟨[⟨8, 0, 0⟩, ⟨9, 0, 0⟩], [0], none⟩ ⟨0, 0, ⟨8, 0, 0⟩⟩).1,
   (c5_scheduled_amended ⟨[⟨8, 0, 0⟩, ⟨9, 0, 0⟩], [0], none⟩ ⟨0, 0, ⟨8, 0, 0⟩⟩).2.2
     (by decide)⟩

/-- Counterexample to claim C1: at a scheduled poll whose weekday is not in
the allowed set, the loop executes an uncancellable time.sleep(60) — sixty
times the mode's one-second granularity — so a stop() issued during that
sleep is not observed within the claimed bound. -/
theorem c1_counterexample :
    blockingSleepTenths (.scheduledPoll ⟨[⟨8, 0, 0⟩], [1], none⟩ ⟨0, 0, ⟨8, 0, 0⟩⟩) = 600
    ∧ ¬ blockingSleepTenths (.scheduledPoll ⟨[⟨8, 0, 0⟩], [1], none⟩ ⟨0, 0, ⟨8, 0, 0⟩⟩)
        ≤ granularityTenths
            (pointMode (.scheduledPoll ⟨[⟨8, 0, 0⟩], [1], none⟩ ⟨0, 0, ⟨8, 0, 0⟩⟩)) := by
  decide

/-- Claim C1, amended: every blocking sleep in every run loop is within the
mode's polling granularity except in the scheduled loop, whose weekday- and
date-mismatch branches block in an uncancellable 60-second sleep, so there
the worker can take up to 60 s to observe cancellation. -/
theorem c1_sleep_bound_amended (p : LoopPoint) :
    blockingSleepTenths p ≤ granularityTenths (pointMode p)
    ∨ ∃ cfg now, p = .scheduledPoll cfg now ∧ (scheduledIter cfg now).2 = 600
        ∧ blockingSleepTenths p = 600 := by
  cases p with
  | countdownTick => left; decide
  | intervalWait => left; decide
  | conditionalWait => left; decide
  | chainPoll => left; decide
  | pomodoroTick => left; decide
  | stopwatchTick => left; decide
  | scheduledPoll cfg now =>
    by_cases h1 : now.weekday ∈ cfg.daysOfWeek
    · by_cases h2 : dateMismatch cfg now
      · right
        exact ⟨cfg, now, rfl, by simp [scheduledIter, h1, h2],
          by simp [blockingSleepTenths, scheduledIter, h1, h2]⟩
      · left
        simp [blockingSleepTenths, scheduledIter, h1, h2, granularityTenths,
          pointMode]
    · right
      exact ⟨cfg, now, rfl, by simp [scheduledIter, h1],
        by simp [blockingSleepTenths, scheduledIter, h1]⟩

/-- Counterexample to claim C6: a condition expression returning the
non-boolean value 1 is coerced by bool() to True, so the evaluation is not
treated as false as the claim states. -/
theorem c6_counterexample :
    evaluateCondition (.returns (.pInt 1)) = true ∧ isBool (.pInt 1) = false :=
  ⟨rfl, rfl⟩

/-- Claim C6, amended: if evaluating a condition raises any error the
evaluation yields false, and the error never escapes the evaluator: an
uncancelled conditional loop triggers exactly at the polls whose evaluation
yields true (the raising and falsy ones are skipped) and keeps running
regardless of errors.  A returned non-boolean value, however, is coerced by
Python truthiness rather than treated as false. -/
theorem c6_conditional_amended :
    evaluateCondition .raises = false
    ∧ (∀ v, evaluateCondition (.returns v) = truthy v)
    ∧ ∀ (evalAt : Nat → EvalOutcome) (iv fuel t0 : Nat),
        runConditional none evalAt iv fuel t0
          = ((pollTimes iv fuel t0).filter (fun t => evaluateCondition (evalAt t)),
             .running) := by
  refine ⟨rfl, fun v => rfl, ?_⟩
  intro evalAt iv fuel
  induction fuel with
  | zero => intro t0; simp [runConditional, pollTimes]
  | succ n ih =>
    intro t0
    simp only [runConditional, stopSet, waitInterrupted, pollTimes,
      List.filter_cons]
    rw [ih (t0 + iv)]
    by_cases h : evaluateCondition (evalAt t0) <;> simp [h]

/-- Helper: phases of an uncancelled pomodoro run alternate, work on even
indices and break on odd indices. -/
theorem pomStateAt_isWork (n : Nat) :
    (pomStateAt n).isWorkPeriod = decide (n % 2 = 0) := by
  induction n with
  | zero => rfl
  | succ m ih =>
    show (pomStep (pomStateAt m)).isWorkPeriod = decide ((m + 1) % 2 = 0)
    rw [pomStep]
    by_cases h : m % 2 = 0
    · simp [ih, h]; omega
    · have h1 : m % 2 = 1 := by omega
      have h2 : (m + 1) % 2 = 0 := by omega
      simp [ih, h1, h2]

/-- Helper: at the start of the n-th phase the completed-cycle counter
equals the number of work phases among the first n phases. -/
theorem pomStateAt_cycle (n : Nat) :
    (pomStateAt n).currentCycle = (n + 1) / 2 := by
  induction n with
  | zero => rfl
  | succ m ih =>
    show (pomStep (pomStateAt m)).currentCycle = (m + 2) / 2
    rw [pomStep]
    rw [pomStateAt_isWork m]
    by_cases h : m % 2 = 0
    · have h1 : decide (m % 2 = 0) = true := by simp [h]
      rw [h1, if_pos rfl, ih]
      dsimp only
      omega
    · have h1 : decide (m % 2 = 0) = false := by simp [h]
      rw [h1, if_neg (by simp), ih]
      omega

/-- Helper: an uncancelled pomodoro run that is still running after fuel
phases has triggered exactly once per phase. -/
theorem runPomodoro_none_length (cfg : PomConfig) :
    ∀ (fuel : Nat) (st : PomState) (t : Nat),
      (runPomodoro none cfg fuel st t).2 = .running →
      (runPomodoro none cfg fuel st t).1.length = fuel := by
  intro fuel
  induction fuel with
  | zero => intro st t _; simp [runPomodoro]
  | succ n ih =>
    intro st t hr
    cases hd : pomPhaseDuration cfg st with
    | none =>
      rw [runPomodoro] at hr
      simp [stopSet, hd] at hr
    | some d =>
      rw [runPomodoro] at hr ⊢
      simp only [stopSet, hd, phaseInterrupted, Bool.false_eq_true, if_false] at hr ⊢
      simp only [List.length_cons]
      rw [ih (pomStep st) (t + d) (by exact hr)]

/-- Claim C4: for an uncancelled pomodoro run, phases alternate work/break;
the completed-cycle counter at the start of the n-th phase is the number of
completed work phases and increments exactly once per completed work phase
and never on a break phase; a work phase lasts the work duration; a break
phase (when its duration computes at all, i.e. the cycle threshold is not
zero) lasts the long-break duration exactly when the counter is a positive
multiple of cycles_until_long_break, else the short break duration; and
the run triggers exactly once at the end of every completed phase. -/
theorem c4_pomodoro :
    (∀ (cfg : PomConfig) (n d : Nat),
      pomPhaseDuration cfg (pomStateAt n) = some d →
        (pomStateAt n).isWorkPeriod = decide (n % 2 = 0)
        ∧ (pomStateAt n).currentCycle = (n + 1) / 2
        ∧ (n % 2 = 0 → d = cfg.workDuration)
        ∧ (n % 2 = 1 →
            d = if 0 < (n + 1) / 2 ∧ cfg.cyclesUntilLongBreak ∣ (n + 1) / 2
                then cfg.longBreakDuration else cfg.breakDuration))
    ∧ (∀ n, (pomStateAt (n + 1)).currentCycle
        = (pomStateAt n).currentCycle
          + (if (pomStateAt n).isWorkPeriod then 1 else 0))
    ∧ (∀ (cfg : PomConfig) (fuel : Nat),
        (runPomodoro none cfg fuel ⟨0, true⟩ 0).2 = .running →
        (runPomodoro none cfg fuel ⟨0, true⟩ 0).1.length = fuel) := by
  refine ⟨?_, ?_, ?_⟩
  · intro cfg n d hd
    refine ⟨pomStateAt_isWork n, pomStateAt_cycle n, ?_, ?_⟩
    · intro he
      have hw : (pomStateAt n).isWorkPeriod = true := by
        rw [pomStateAt_isWork n]; simp [he]
      rw [pomPhaseDuration, if_pos hw] at hd
      exact (Option.some_inj.mp hd).symm
    · intro ho
      have hw : (pomStateAt n).isWorkPeriod = false := by
        rw [pomStateAt_isWork n]; simp; omega
      rw [pomPhaseDuration] at hd
      rw [hw] at hd
      simp only [Bool.false_eq_true, if_false] at hd
      by_cases hz : cfg.cyclesUntilLongBreak = 0
      · rw [if_pos hz] at hd; exact absurd hd (by simp)
      · rw [if_neg hz, pomStateAt_cycle n] at hd
        by_cases hc : (n + 1) / 2 % cfg.cyclesUntilLongBreak = 0 ∧ 0 < (n + 1) / 2
        · rw [if_pos hc] at hd
          rw [if_pos ⟨hc.2, Nat.dvd_iff_mod_eq_zero.mpr hc.1⟩]
          exact (Option.some_inj.mp hd).symm
        · rw [if_neg hc] at hd
          rw [if_neg ?_]
          · exact (Option.some_inj.mp hd).symm
          · rintro ⟨hpos, hdvd⟩
            exact hc ⟨Nat.dvd_iff_mod_eq_zero.mp hdvd, hpos⟩
  · intro n
    show (pomStep (pomStateAt n)).currentCycle = _
    rw [pomStep]
    by_cases h : (pomStateAt n).isWorkPeriod <;> simp [h]
  · intro cfg fuel
    exact runPomodoro_none_length cfg fuel ⟨0, true⟩ 0

/-- Witness for C4 at the configuration of the spec example (work 2 s,
break 1 s, long break 3 s, threshold 2), at the fourth phase (a long
break), and an uncancelled run of six phases. -/
theorem c4_pomodoro_witness :
    ((pomStateAt 3).isWorkPeriod = decide (3 % 2 = 0)
      ∧ (pomStateAt 3).currentCycle = (3 + 1) / 2
      ∧ (3 % 2 = 0 → (3 : Nat) = (2 : Nat))
      ∧ (3 % 2 = 1 →
          (3 : Nat) = if 0 < (3 + 1) / 2 ∧ 2 ∣ (3 + 1) / 2 then (3 : Nat) else 1))
    ∧ (runPomodoro none ⟨2, 1, 3, 2⟩ 6 ⟨0, true⟩ 0).1.length = 6 :=
  ⟨c4_pomodoro.1 ⟨2, 1, 3, 2⟩ 3 3 (by decide),
   c4_pomodoro.2.2 ⟨2, 1, 3, 2⟩ 6 (by decide)⟩

/-- Helper: a chain loop entered with the stop event already set starts no
sub-timer. -/
theorem runChain_already_stopped (s : Nat) (durs : List (Option Nat)) (t : Nat)
    (h : s ≤ t) : runChain (some s) durs t = some ([], []) := by
  cases durs with
  | nil => rw [runChain]
  | cons dur rest =>
    cases dur with
    | none => rw [runChain]; simp [stopSet, h]
    | some d => rw [runChain]; simp [stopSet, h]

/-- Claim C9: a chain executes its sub-timer specs strictly sequentially.
Uncancelled, every sub-timer runs to full natural completion before the
next one is constructed, one episode per spec, back to back.  With the
stop event set at instant s, every sub-timer that was started had been
started before s, every wait ends by s, the one possibly-incomplete
episode is the last (the currently active sub-timer, stopped exactly at
s), and no later sub-timer is constructed.  In both cases the chain engine
never runs its own action sequence: its own trigger list is empty. -/
theorem c9_chain :
    (∀ (durs : List (Option Nat)) (t : Nat) (eps : List Episode) (own : List Nat),
      runChain none durs t = some (eps, own) →
        own = [] ∧ eps.length = durs.length ∧ chainedFrom t eps
          ∧ ∀ e ∈ eps, e.completed = true)
    ∧ (∀ (durs : List (Option Nat)) (t s : Nat) (eps : List Episode)
        (own : List Nat),
      runChain (some s) durs t = some (eps, own) →
        own = [] ∧ chainedFrom t eps ∧ incompleteLast eps
          ∧ ∀ e ∈ eps, e.start < s ∧ e.finish ≤ s
              ∧ (e.completed = false → e.finish = s)) := by
  constructor
  · intro durs
    induction durs with
    | nil =>
      intro t eps own h
      rw [runChain] at h
      obtain ⟨h1, h2⟩ := Prod.mk.injEq .. ▸ Option.some_inj.mp h
      subst h1; subst h2
      simp [chainedFrom]
    | cons dur rest ih =>
      intro t eps own h
      cases dur with
      | none =>
        rw [runChain] at h
        simp [stopSet] at h
      | some d =>
        rw [runChain] at h
        simp only [stopSet, Bool.false_eq_true, if_false,
          Option.map_eq_some'] at h
        obtain ⟨r, hr, hre⟩ := h
        obtain ⟨h1, h2⟩ := Prod.mk.injEq .. ▸ hre
        obtain ⟨hown, hlen, hch, hcomp⟩ := ih (t + d) r.1 r.2 (by rw [hr])
        subst h1; subst h2
        refine ⟨hown, by simp [hlen], ⟨rfl, hch⟩, ?_⟩
        intro e he
        rcases List.mem_cons.mp he with rfl | he
        · rfl
        · exact hcomp e he
  · intro durs
    induction durs with
    | nil =>
      intro t s eps own h
      rw [runChain] at h
      obtain ⟨h1, h2⟩ := Prod.mk.injEq .. ▸ Option.some_inj.mp h
      subst h1; subst h2
      simp [chainedFrom, incompleteLast]
    | cons dur rest ih =>
      intro t s eps own h
      by_cases hs : s ≤ t
      · rw [runChain_already_stopped s (dur :: rest) t hs] at h
        obtain ⟨h1, h2⟩ := Prod.mk.injEq .. ▸ Option.some_inj.mp h
        subst h1; subst h2
        simp [chainedFrom, incompleteLast]
      · cases dur with
        | none =>
          rw [runChain] at h
          simp only [stopSet, decide_eq_true_eq, if_neg hs,
            Option.map_eq_some'] at h
          obtain ⟨r, hr, hre⟩ := h
          obtain ⟨h1, h2⟩ := Prod.mk.injEq .. ▸ hre
          obtain ⟨hown, hch, hil, hprop⟩ := ih s s r.1 r.2 (by rw [hr])
          have hr1 : r.1 = [] := by
            rw [runChain_already_stopped s rest s (le_refl s)] at hr
            have he2 := Option.some_inj.mp hr
            rw [← he2]
          subst h1; subst h2
          refine ⟨hown, ⟨rfl, hch⟩, ⟨fun _ => hr1, hil⟩, ?_⟩
          intro e he
          rcases List.mem_cons.mp he with rfl | he
          · refine ⟨?_, ?_, ?_⟩
            · show t < s
              omega
            · show s ≤ s
              omega
            · intro _
              rfl
          · exact hprop e he
        | some d =>
          rw [runChain] at h
          simp only [stopSet, decide_eq_true_eq, if_neg hs,
            Option.map_eq_some'] at h
          obtain ⟨r, hr, hre⟩ := h
          obtain ⟨h1, h2⟩ := Prod.mk.injEq .. ▸ hre
          obtain ⟨hown, hch, hil, hprop⟩ :=
            ih (min (t + d) s) s r.1 r.2 (by rw [hr])
          subst h1; subst h2
          by_cases hc : t + d ≤ s
          · refine ⟨hown, ⟨rfl, hch⟩, ⟨?_, hil⟩, ?_⟩
            · intro hf
              have hdf : decide (t + d ≤ s) = false := hf
              simp [hc] at hdf
            · intro e he
              rcases List.mem_cons.mp he with rfl | he
              · refine ⟨?_, ?_, ?_⟩
                · show t < s
                  omega
                · show min (t + d) s ≤ s
                  omega
                · intro hf
                  have hdf : decide (t + d ≤ s) = false := hf
                  simp [hc] at hdf
              · exact hprop e he
          · have hr1 : r.1 = [] := by
              have hmin : min (t + d) s = s := by omega
              rw [hmin] at hr
              rw [runChain_already_stopped s rest s (le_refl s)] at hr
              have he2 := Option.some_inj.mp hr
              rw [← he2]
            refine ⟨hown, ⟨rfl, hch⟩, ⟨fun _ => hr1, hil⟩, ?_⟩
            intro e he
            rcases List.mem_cons.mp he with rfl | he
            · refine ⟨?_, ?_, ?_⟩
              · show t < s
                omega
              · show min (t + d) s ≤ s
                omega
              · intro _
                show min (t + d) s = s
                omega
            · exact hprop e he

/-- Witness for C9: a chain of a 2-second sub-timer then a 3-second
sub-timer (durations in tenths), run uncancelled and run with stop at
instant 30 (during the second sub-timer). -/
theorem c9_chain_witness :
    (([] : List Nat) = [] ∧ (2 : Nat) = 2
      ∧ chainedFrom 0 [⟨0, 20, true⟩, ⟨20, 50, true⟩]
      ∧ ∀ e ∈ [(⟨0, 20, true⟩ : Episode), ⟨20, 50, true⟩], e.completed = true)
    ∧ (([] : List Nat) = []
      ∧ chainedFrom 0 [⟨0, 20, true⟩, ⟨20, 30, false⟩]
      ∧ incompleteLast [⟨0, 20, true⟩, ⟨20, 30, false⟩]
      ∧ ∀ e ∈ [(⟨0, 20, true⟩ : Episode), ⟨20, 30, false⟩],
          e.start < 30 ∧ e.finish ≤ 30 ∧ (e.completed = false → e.finish = 30)) := by
  constructor
  · have h := c9_chain.1 [some 20, some 30] 0 [⟨0, 20, true⟩, ⟨20, 50, true⟩] []
      (by decide)
    exact ⟨h.1, by simp, h.2.2.1, h.2.2.2⟩
  · have h := c9_chain.2 [some 20, some 30] 0 30 [⟨0, 20, true⟩, ⟨20, 30, false⟩] []
      (by decide)
    exact h

/-- Claim C2 (code bug): TimerManager.save_to_file hands the raw config
dict to json.dump, and a scheduled timer's config holds datetime.time
objects in schedule_times, which json.dump cannot serialize; saving any
registry containing such a timer raises TypeError and writes nothing, so
the save/load round trip fails for the scheduled mode. -/
theorem c2_save_fails_on_scheduled :
    saveToFile [⟨"sched", .scheduled,
      .pDict [("schedule_times", .pList [.pTime ⟨8, 0, 0⟩]),
              ("days_of_week", .pList [.pInt 0, .pInt 1]),
              ("date_specific", .pNone)], []⟩] = none := by
  simp [saveToFile, jsonSafe, jsonSafeList, jsonSafeDict]

/-- Helper: the mode tag string round-trips through the enum lookup. -/
theorem timerTypeTag_roundTrip (ty : TimerType) :
    TimerType.ofValue ty.value = some ty := by
  cases ty <;> rfl

/-- Helper: the action tag string round-trips through the enum lookup. -/
theorem actionTypeTag_roundTrip (a : ActionType) :
    ActionType.ofValue a.value = some a := by
  cases a <;> rfl

/-- Helper: a saved action list parses back to the original actions in the
original order. -/
theorem parseActions_roundTrip (acts : List TimerAction) :
    parseActions (acts.map fun a => (a.actionType.value, a.parameters))
      = some acts := by
  induction acts with
  | nil => rfl
  | cons a rest ih =>
    rw [List.map_cons, parseActions, actionTypeTag_roundTrip, Option.some_bind,
      ih, Option.map_some']

/-- Helper: a saved entry parses back to the original timer record. -/
theorem parseEntry_roundTrip (tr : TimerRec) :
    parseEntry tr.name
      ⟨tr.timerType.value, tr.config,
        tr.actions.map fun a => (a.actionType.value, a.parameters)⟩
      = some tr := by
  rw [parseEntry]
  simp only [timerTypeTag_roundTrip, Option.some_bind, parseActions_roundTrip,
    Option.map_some']

/-- Helper: loading the saved document of timers whose names are fresh for
the manager and pairwise distinct registers all of them, in order, with no
error reported. -/
theorem loadFromFile_saved (timers : List TimerRec) :
    ∀ m : Manager,
      (∀ tr ∈ timers, containsName m.timers tr.name = false) →
      (timers.map TimerRec.name).Nodup →
      loadFromFile m (timers.map fun tr =>
        (tr.name, ⟨tr.timerType.value, tr.config,
          tr.actions.map fun a => (a.actionType.value, a.parameters)⟩))
        = (⟨m.timers ++ timers, m.callbacks⟩, false) := by
  induction timers with
  | nil => intro m _ _; simp [loadFromFile]
  | cons tr rest ih =>
    intro m hfresh hnodup
    rw [List.map_cons, loadFromFile]
    simp only [parseEntry_roundTrip]
    have hf : containsName m.timers tr.name = false :=
      hfresh tr (List.mem_cons_self tr rest)
    rw [addTimer]
    simp only [hf, Bool.false_eq_true, if_false]
    have hnodup2 : (rest.map TimerRec.name).Nodup :=
      (List.nodup_cons.mp hnodup).2
    have hne : tr.name ∉ rest.map TimerRec.name :=
      (List.nodup_cons.mp hnodup).1
    rw [ih ⟨m.timers ++ [tr], m.callbacks⟩ ?_ hnodup2]
    · simp
    · intro tr2 htr2
      show (m.timers ++ [tr]).any (fun t0 => t0.name == tr2.name) = false
      rw [List.any_append]
      have h1 : containsName m.timers tr2.name = false :=
        hfresh tr2 (List.mem_cons_of_mem tr htr2)
      rw [show m.timers.any (fun t0 => t0.name == tr2.name) = false from h1]
      have : (tr.name == tr2.name) = false := by
        simp only [beq_eq_false_iff_ne, ne_eq]
        intro hcontra
        exact hne (hcontra ▸ List.mem_map_of_mem TimerRec.name htr2)
      simp [this]

/-- Save/load round trip for registries json.dump accepts: when saving
succeeds (no datetime.time or datetime.date value in any config or action
params) and the timer names are distinct, loading the saved document into
a fresh manager reconstructs every timer — same name, mode, config, and
action sequence in the same order — with no error reported.  Together with
the failing scheduled case this isolates the C2 bug to the JSON encoding
of scheduled configs. -/
theorem saveLoad_roundTrip (timers : List TimerRec) (cbs : List CallbackSpec)
    (doc : List (String × SavedEntry))
    (hsave : saveToFile timers = some doc)
    (hnodup : (timers.map TimerRec.name).Nodup) :
    loadFromFile ⟨[], cbs⟩ doc = (⟨timers, cbs⟩, false) := by
  rw [saveToFile] at hsave
  split at hsave
  · have hdoc := Option.some_inj.mp hsave
    rw [← hdoc]
    have := loadFromFile_saved timers ⟨[], cbs⟩ (fun tr _ => rfl) hnodup
    simpa using this
  · exact absurd hsave (by simp)

/-- Counterexample to claim C7: a document whose second entry has the
unknown mode tag "bogus" loads only its first entry; the entry after the
bad one is not loaded, so the other entries of the document are affected. -/
theorem c7_counterexample :
    ((loadFromFile ⟨[], []⟩
        [("a", ⟨"countdown", .pDict [("duration", .pInt 5)], []⟩),
         ("b", ⟨"bogus", .pNone, []⟩),
         ("c", ⟨"countdown", .pDict [("duration", .pInt 7)], []⟩)]).1.timers.map
      TimerRec.name) = ["a"]
    ∧ "c" ∉ ((loadFromFile ⟨[], []⟩
        [("a", ⟨"countdown", .pDict [("duration", .pInt 5)], []⟩),
         ("b", ⟨"bogus", .pNone, []⟩),
         ("c", ⟨"countdown", .pDict [("duration", .pInt 7)], []⟩)]).1.timers.map
      TimerRec.name)
    ∧ (loadFromFile ⟨[], []⟩
        [("a", ⟨"countdown", .pDict [("duration", .pInt 5)], []⟩),
         ("b", ⟨"bogus", .pNone, []⟩),
         ("c", ⟨"countdown", .pDict [("duration", .pInt 7)], []⟩)]).2 = true := by
  refine ⟨rfl, ?_, rfl⟩
  have h1 : ((loadFromFile ⟨[], []⟩
        [("a", ⟨"countdown", .pDict [("duration", .pInt 5)], []⟩),
         ("b", ⟨"bogus", .pNone, []⟩),
         ("c", ⟨"countdown", .pDict [("duration", .pInt 7)], []⟩)]).1.timers.map
      TimerRec.name) = ["a"] := rfl
  rw [h1]
  decide

/-- Claim C7, amended: loading an entry whose mode tag or whose any action
tag is unknown fails for that entry, is reported (the load returns with
the error flag), and registers no partially-constructed engine for that
entry — but it aborts the whole remaining load: the entries before the bad
one are registered and every entry after it is skipped. -/
theorem c7_load_amended (m : Manager) (pre : List (String × SavedEntry))
    (name : String) (e : SavedEntry) (rest : List (String × SavedEntry))
    (hpre : ∀ p ∈ pre, (parseEntry p.1 p.2).isSome = true)
    (hbad : parseEntry name e = none) :
    loadFromFile m (pre ++ (name, e) :: rest)
      = ((loadFromFile m pre).1, true) := by
  induction pre generalizing m with
  | nil =>
    simp [loadFromFile, hbad]
  | cons p ps ih =>
    obtain ⟨pn, pe⟩ := p
    have hp : (parseEntry pn pe).isSome = true :=
      hpre (pn, pe) (List.mem_cons_self (pn, pe) ps)
    obtain ⟨tr, htr⟩ := Option.isSome_iff_exists.mp hp
    rw [List.cons_append]
    simp only [loadFromFile, htr]
    exact ih (addTimer m tr).1
      (fun q hq => hpre q (List.mem_cons_of_mem (pn, pe) hq))

/-- Witness for C7 (amended): a document with one good countdown entry, one
unknown-mode entry, and one trailing good entry. -/
theorem c7_load_amended_witness :
    loadFromFile ⟨[], []⟩
        [("a", ⟨"countdown", .pNone, []⟩),
         ("b", ⟨"bogus", .pNone, []⟩),
         ("c", ⟨"countdown", .pNone, []⟩)]
      = ((loadFromFile ⟨[], []⟩ [("a", ⟨"countdown", .pNone, []⟩)]).1, true) :=
  c7_load_amended ⟨[], []⟩ [("a", ⟨"countdown", .pNone, []⟩)] "b"
    ⟨"bogus", .pNone, []⟩ [("c", ⟨"countdown", .pNone, []⟩)]
    (by intro p hp; simp at hp; rw [hp]; rfl) rfl

/-- Claim C10: the registry's subscriber callbacks are notified exactly
once after a successful add and a successful remove — one invocation per
registered callback — and not at all when add fails on a duplicate name or
remove fails on an absent name; a callback that raises is contained and
the remaining callbacks still run (the invocation list always covers every
callback). -/
theorem c10_registry_callbacks :
    (∀ (m : Manager) (tr : TimerRec),
      (containsName m.timers tr.name = true → addTimer m tr = (m, false, []))
      ∧ (containsName m.timers tr.name = false →
          (addTimer m tr).2.1 = true
          ∧ (addTimer m tr).2.2 = notifyCallbacks m.callbacks))
    ∧ (∀ (m : Manager) (n : String),
      (containsName m.timers n = false → removeTimer m n = (m, false, []))
      ∧ (containsName m.timers n = true →
          (removeTimer m n).2.1 = true
          ∧ (removeTimer m n).2.2 = notifyCallbacks m.callbacks))
    ∧ (∀ cbs : List CallbackSpec, (notifyCallbacks cbs).length = cbs.length) := by
  refine ⟨?_, ?_, ?_⟩
  · intro m tr
    constructor
    · intro h; rw [addTimer, h]; rfl
    · intro h; rw [addTimer]; simp [h]
  · intro m n
    constructor
    · intro h; rw [removeTimer, h]; rfl
    · intro h; rw [removeTimer, h]; exact ⟨rfl, rfl⟩
  · intro cbs
    induction cbs with
    | nil => rfl
    | cons c rest ih => simp [notifyCallbacks, ih]

/-- Witness for C10 on a registry with two callbacks (the first of which
raises): a duplicate add fails silently, a fresh add notifies both
callbacks, a missing remove fails silently, a present remove notifies
both. -/
theorem c10_registry_callbacks_witness :
    addTimer ⟨[⟨"a", .countdown, .pNone, []⟩], [⟨true⟩, ⟨false⟩]⟩
        ⟨"a", .interval, .pNone, []⟩
      = (⟨[⟨"a", .countdown, .pNone, []⟩], [⟨true⟩, ⟨false⟩]⟩, false, [])
    ∧ (addTimer ⟨[⟨"a", .countdown, .pNone, []⟩], [⟨true⟩, ⟨false⟩]⟩
        ⟨"b", .interval, .pNone, []⟩).2.2
      = notifyCallbacks [⟨true⟩, ⟨false⟩]
    ∧ removeTimer ⟨[⟨"a", .countdown, .pNone, []⟩], [⟨true⟩, ⟨false⟩]⟩ "z"
      = (⟨[⟨"a", .countdown, .pNone, []⟩], [⟨true⟩, ⟨false⟩]⟩, false, [])
    ∧ (removeTimer ⟨[⟨"a", .countdown, .pNone, []⟩], [⟨true⟩, ⟨false⟩]⟩ "a").2.2
      = notifyCallbacks [⟨true⟩, ⟨false⟩] :=
  ⟨((c10_registry_callbacks.1 ⟨[⟨"a", .countdown, .pNone, []⟩],
      [⟨true⟩, ⟨false⟩]⟩ ⟨"a", .interval, .pNone, []⟩).1 rfl),
   ((c10_registry_callbacks.1 ⟨[⟨"a", .countdown, .pNone, []⟩],
      [⟨true⟩, ⟨false⟩]⟩ ⟨"b", .interval, .pNone, []⟩).2 rfl).2,
   ((c10_registry_callbacks.2.1 ⟨[⟨"a", .countdown, .pNone, []⟩],
      [⟨true⟩, ⟨false⟩]⟩ "z").1 rfl),
   ((c10_registry_callbacks.2.1 ⟨[⟨"a", .countdown, .pNone, []⟩],
      [⟨true⟩, ⟨false⟩]⟩ "a").2 rfl).2⟩

end TimerModel
